import Mathlib

/-!
Verification of the Robo-Mechanic-Arm vision server
(`src/python/vision_server.py`) against its natural-language
specification.

The server is embedded shallowly:

* A TCP byte stream is modelled as a `ChunkedStream`: the list of byte
  groups that successive `recv` calls observe.  A socket `recv k` call
  returns at most `k` bytes taken from the front of the first pending
  group; an exhausted stream models EOF, where `recv` returns the empty
  byte string.  This captures the documented Python socket semantics
  that a single `recv` may return fewer bytes than requested on a live
  connection.
* Bytes are `Nat` values (the code never does arithmetic that could
  overflow a byte); the 4-byte little-endian length header of the wire
  protocol is `le32enc` / `le32dec`, mirroring `struct.pack("<I", n)`
  and `struct.unpack("<I", b)`.
* The OpenCV primitives that the specification declares out of scope
  ("consumed as an opaque capability": image decoding, BGR to HSV
  conversion, Gaussian blur, morphological opening, the debug display)
  are collected in a `Collab` record of abstract functions; everything
  the repository itself computes (`cv2.inRange` thresholding,
  `cv2.bitwise_or`, the nonzero ratio, the command choice, the framing,
  the session loop) is defined concretely from the source.
* Exceptions are explicit: `SessionError` enumerates the exceptions a
  session can raise (`ConnectionError` from `read_exact`,
  `struct.error` from `struct.unpack` on a short header, `ValueError`
  from `decode_image`, an error escaping `display_debug`, and an error
  from `sendall`).
-/

/-- A byte stream as the sequence of byte groups successive `recv` calls
observe; the end of the list is EOF. -/
abbrev ChunkedStream := List (List Nat)

/-- Exceptions that can be raised inside one client session, mirroring
the Python exception types that can escape each pipeline stage. -/
inductive SessionError where
  /-- The `ConnectionError("Socket connection broken")` raised by `read_exact`. -/
  | connectionError
  /-- The `struct.error` raised by `struct.unpack("<I", b)` when `b` has
  fewer than 4 bytes. -/
  | structError
  /-- The `ValueError` raised by `decode_image` when `cv2.imdecode` fails. -/
  | decodeError
  /-- an exception escaping `display_debug` (for example `cv2.error`). -/
  | displayError
  /-- an exception raised by `socket.sendall` in `send_command`. -/
  | sendError
deriving DecidableEq, Repr

/-- Total number of bytes still pending on a stream. -/
def totalBytes (s : ChunkedStream) : Nat := (s.map List.length).sum

/-- One `socket.recv k` call: returns at most `k` bytes from the front
of the first pending group, together with the remaining stream.  An
exhausted stream (EOF) yields the empty byte string. -/
def recv (s : ChunkedStream) (k : Nat) : List Nat × ChunkedStream :=
  match s with
  | [] => ([], [])
  | c :: rest => if c.length ≤ k then (c, rest) else (c.take k, c.drop k :: rest)

/-- Model of `struct.pack("<I", n)`: the 4-byte little-endian encoding of `n`. -/
def le32enc (n : Nat) : List Nat :=
  [n % 256, n / 256 % 256, n / 65536 % 256, n / 16777216 % 256]

/-- Model of `struct.unpack("<I", b)` on a 4-byte string: the little-endian value. -/
def le32dec (b : List Nat) : Nat :=
  match b with
  | [b0, b1, b2, b3] => b0 + 256 * b1 + 65536 * b2 + 16777216 * b3
  | _ => 0

/-- Loop body of `read_exact`: `remaining` is `length - bytes_recd`,
`acc` is `b"".join(chunks)` so far.  An empty `recv` result raises
`ConnectionError`. -/
def readExactGo (s : ChunkedStream) (remaining : Nat) (acc : List Nat) :
    Except SessionError (List Nat × ChunkedStream) :=
  if h0 : remaining = 0 then Except.ok (acc, s)
  else if h : (recv s remaining).1 = [] then Except.error SessionError.connectionError
  else readExactGo (recv s remaining).2 (remaining - (recv s remaining).1.length)
    (acc ++ (recv s remaining).1)
termination_by remaining
decreasing_by
  have hpos : 0 < (recv s remaining).1.length := List.length_pos.mpr h
  omega

/-- Model of `read_exact(stream, length)`: read exactly `length` bytes or raise
`ConnectionError`. -/
def read_exact (stream : ChunkedStream) (length : Nat) :
    Except SessionError (List Nat × ChunkedStream) :=
  readExactGo stream length []

/-- Result of the framed read at the top of the `handle_client` loop:
`recv(4)`, the emptiness test, `struct.unpack`, then `read_exact`. -/
inductive ReadResult where
  /-- The call `recv(4)` returned no bytes: clean end of session (`break`). -/
  | eof
  /-- The call `recv(4)` returned 1 to 3 bytes: `struct.unpack("<I", ·)` raises
  `struct.error`. -/
  | headerError
  /-- The call to `read_exact` raised `ConnectionError` inside the payload. -/
  | truncated
  /-- A complete message: the payload and the remaining stream. -/
  | frame (payload : List Nat) (rest : ChunkedStream)
deriving DecidableEq, Repr

/-- The framed read performed by `handle_client` lines 107-111:
`length_bytes = recv(4)`; `break` on empty; `struct.unpack("<I", ·)`;
`read_exact` for the payload. -/
def readFrame (s : ChunkedStream) : ReadResult :=
  let r4 := recv s 4
  if r4.1.isEmpty then ReadResult.eof
  else if r4.1.length = 4 then
    match read_exact r4.2 (le32dec r4.1) with
    | Except.error _ => ReadResult.truncated
    | Except.ok (payload, s2) => ReadResult.frame payload s2
  else ReadResult.headerError

/-- The bytes `send_command` passes to `sendall`: the 4-byte
little-endian length header followed by the payload. -/
def writeFrame (payload : List Nat) : List Nat :=
  le32enc payload.length ++ payload

/- ### Basic lemmas about the transport -/

lemma recv_length_le (s : ChunkedStream) (k : Nat) : (recv s k).1.length ≤ k := by
  match s with
  | [] => simp [recv]
  | c :: rest =>
    by_cases h : c.length ≤ k
    · simpa [recv, h] using h
    · simp [recv, h, List.length_take]

lemma recv_totalBytes (s : ChunkedStream) (k : Nat) :
    totalBytes (recv s k).2 + (recv s k).1.length = totalBytes s := by
  match s with
  | [] => simp [recv, totalBytes]
  | c :: rest =>
    by_cases h : c.length ≤ k
    · simp [recv, h, totalBytes]
      omega
    · simp [recv, h, totalBytes, List.length_take, List.length_drop]
      omega

lemma readExactGo_ok_length :
    ∀ (remaining : Nat) (s : ChunkedStream) (acc d : List Nat) (r : ChunkedStream),
      readExactGo s remaining acc = Except.ok (d, r) →
      d.length = acc.length + remaining := by
  intro remaining
  induction remaining using Nat.strong_induction_on with
  | _ remaining ih =>
    intro s acc d r h
    rw [readExactGo.eq_def] at h
    by_cases h0 : remaining = 0
    · simp [h0] at h
      simp [h.1, h0]
    · simp only [h0, dite_false] at h
      by_cases hc : (recv s remaining).1 = []
      · simp [hc] at h
      · simp only [hc, dite_false] at h
        have hlen : (recv s remaining).1.length ≤ remaining := recv_length_le s remaining
        have hpos : 0 < (recv s remaining).1.length := List.length_pos.mpr hc
        have := ih (remaining - (recv s remaining).1.length) (by omega)
          (recv s remaining).2 (acc ++ (recv s remaining).1) d r h
        simp [List.length_append] at this
        omega

lemma readExactGo_ok_totalBytes :
    ∀ (remaining : Nat) (s : ChunkedStream) (acc d : List Nat) (r : ChunkedStream),
      readExactGo s remaining acc = Except.ok (d, r) →
      totalBytes r ≤ totalBytes s := by
  intro remaining
  induction remaining using Nat.strong_induction_on with
  | _ remaining ih =>
    intro s acc d r h
    rw [readExactGo.eq_def] at h
    by_cases h0 : remaining = 0
    · simp [h0] at h
      simp [h.2]
    · simp only [h0, dite_false] at h
      by_cases hc : (recv s remaining).1 = []
      · simp [hc] at h
      · simp only [hc, dite_false] at h
        have hlen : (recv s remaining).1.length ≤ remaining := recv_length_le s remaining
        have hpos : 0 < (recv s remaining).1.length := List.length_pos.mpr hc
        have h1 := ih (remaining - (recv s remaining).1.length) (by omega)
          (recv s remaining).2 (acc ++ (recv s remaining).1) d r h
        have h2 := recv_totalBytes s remaining
        omega

lemma read_exact_ok_length {s : ChunkedStream} {n : Nat} {d : List Nat}
    {r : ChunkedStream} (h : read_exact s n = Except.ok (d, r)) :
    d.length = n := by
  have := readExactGo_ok_length n s [] d r h
  simpa using this

lemma le32enc_length (n : Nat) : (le32enc n).length = 4 := rfl

lemma le32_roundtrip {n : Nat} (h : n < 2 ^ 32) : le32dec (le32enc n) = n := by
  simp only [le32enc, le32dec]
  omega

/-- Reading back exactly the bytes of a nonempty payload delivered in
one group. -/
lemma read_exact_single (p : List Nat) (hp : p ≠ []) :
    read_exact [p] p.length = Except.ok (p, []) := by
  have h0 : p.length ≠ 0 := by simpa using hp
  rw [read_exact, readExactGo.eq_def]
  have hrecv : recv [p] p.length = (p, []) := by simp [recv]
  simp only [h0, dite_false, hrecv, hp, List.nil_append]
  rw [readExactGo.eq_def]
  simp

/-- Round trip of the framing layer: a stream delivering exactly the
bytes `send_command` writes for payload `p` is read back as `p` by the
framed read of `handle_client`. -/
lemma readFrame_writeFrame (p : List Nat) (h : p.length < 2 ^ 32) :
    readFrame [writeFrame p] = ReadResult.frame p [] := by
  by_cases hp : p.length = 0
  · have hpnil : p = [] := List.length_eq_zero.mp hp
    subst hpnil
    have hre : read_exact [] 0 = Except.ok (([] : List Nat), ([] : ChunkedStream)) := by
      rw [read_exact, readExactGo.eq_def]
      simp
    simp [readFrame, writeFrame, recv, le32enc, le32dec, hre]
  · have hlen : (writeFrame p).length = 4 + p.length := by
      simp [writeFrame, le32enc_length]
    have hgt : ¬ (writeFrame p).length ≤ 4 := by omega
    have htake : (writeFrame p).take 4 = le32enc p.length := by
      have h4 : (le32enc p.length).length = 4 := le32enc_length _
      simp [writeFrame, List.take_append_of_le_length, h4]
    have hdrop : (writeFrame p).drop 4 = p := by
      have h4 : (le32enc p.length).length = 4 := le32enc_length _
      simp [writeFrame, List.drop_append_of_le_length, h4]
    have hne : ¬ (le32enc p.length).isEmpty := by
      simp [le32enc]
    have hre : read_exact [p] p.length = Except.ok (p, []) :=
      read_exact_single p (by simpa using hp)
    simp only [readFrame, recv, hgt, if_false, htake, hdrop, hne,
      Bool.false_eq_true, le32enc_length, if_pos rfl, le32_roundtrip h, hre]
    simp

/- ### The red detector (`detect_red_regions`) -/

/-- A pixel: three 8-bit channels.  Before conversion the components are
(B, G, R); after `cv2.cvtColor(frame, cv2.COLOR_BGR2HSV)` they are
(H, S, V) with hue on the 0-180 scale. -/
abbrev Pixel := Nat × Nat × Nat

/-- An image: a grid of pixels, row by row. -/
abbrev Img := List (List Pixel)

/-- A single-channel mask: a grid of 8-bit values, row by row. -/
abbrev Mask := List (List Nat)

/-- The opaque collaborator capabilities the specification puts out of
scope: `cv2.imdecode` (via `decode_image`, `none` models the decode
failure path that raises `ValueError`), `cv2.cvtColor` BGR to HSV,
`cv2.GaussianBlur` with kernel (9, 9), `cv2.morphologyEx MORPH_OPEN`
with the 5x5 all-ones structuring element, the `display_debug`
rendering (`false` models an exception escaping it), and the success of
`socket.sendall` for an outgoing message (`false` models a send
exception). -/
structure Collab where
  imdecode : List Nat → Option Img
  cvtColor : Img → Img
  gaussianBlur9 : Mask → Mask
  morphOpen5 : Mask → Mask
  display : Img → Mask → String → Bool
  sendOk : List Nat → Bool

/-- Componentwise inclusive range test of `cv2.inRange` for one pixel. -/
def pixInRange (lo hi p : Pixel) : Bool :=
  decide (lo.1 ≤ p.1 ∧ p.1 ≤ hi.1 ∧ lo.2.1 ≤ p.2.1 ∧ p.2.1 ≤ hi.2.1 ∧
    lo.2.2 ≤ p.2.2 ∧ p.2.2 ≤ hi.2.2)

/-- Model of `cv2.inRange(img, lo, hi)`: 255 where the pixel lies inclusively
between `lo` and `hi` in every channel, 0 elsewhere. -/
def inRange (img : Img) (lo hi : Pixel) : Mask :=
  img.map (fun row => row.map (fun p => if pixInRange lo hi p then 255 else 0))

/-- Model of `cv2.bitwise_or(m1, m2)` on same-shaped masks. -/
def bitwise_or (m1 m2 : Mask) : Mask :=
  List.zipWith (List.zipWith (fun a b => a ||| b)) m1 m2

/-- Model of `np.count_nonzero(mask)`. -/
def count_nonzero (m : Mask) : Nat :=
  (m.map (fun row => (row.filter (fun x => x != 0)).length)).sum

/-- Model of `mask.size`: the total number of entries. -/
def maskSize (m : Mask) : Nat := (m.map List.length).sum

/-- Lower bound of the first red range (`lower_red_1`, line 65). -/
def lower_red_1 : Pixel := (0, 120, 70)

/-- Upper bound of the first red range (`upper_red_1`, line 66). -/
def upper_red_1 : Pixel := (10, 255, 255)

/-- Lower bound of the second red range (`lower_red_2`, line 67). -/
def lower_red_2 : Pixel := (170, 120, 70)

/-- Upper bound of the second red range (`upper_red_2`, line 68). -/
def upper_red_2 : Pixel := (180, 255, 255)

/-- Model of `detect_red_regions(frame, min_red_ratio)` (lines 61-78), with the
opaque OpenCV capabilities supplied by `C`: convert to HSV, threshold
the two red ranges, OR the masks, blur, open, and compare the nonzero
ratio against the threshold with `>=`. -/
def detect_red_regions (C : Collab) (frame : Img) (min_red_ratio : ℚ) :
    Bool × Mask :=
  let hsv := C.cvtColor frame
  let mask1 := inRange hsv lower_red_1 upper_red_1
  let mask2 := inRange hsv lower_red_2 upper_red_2
  let mask3 := bitwise_or mask1 mask2
  let mask4 := C.gaussianBlur9 mask3
  let mask5 := C.morphOpen5 mask4
  let red_ratio : ℚ := (count_nonzero mask5 : ℚ) / (maskSize mask5 : ℚ)
  (decide (red_ratio ≥ min_red_ratio), mask5)

/-- Modelled from the specification text of the Red Detector algorithm
(spec section 4.3): a pixel matches red iff it lies in inclusive range
A = H in [0,10], S in [120,255], V in [70,255] or inclusive range
B = H in [170,180], S in [120,255], V in [70,255]; the matches are
combined into a single binary mask by logical OR, then smoothed and
opened by the same opaque capabilities, and the boolean signal is
`redRatio >= minAreaRatio`. -/
def detectSpec (C : Collab) (frame : Img) (minAreaRatio : ℚ) : Bool × Mask :=
  let hsv := C.cvtColor frame
  let redMask := hsv.map (fun row => row.map (fun p =>
    if (0 ≤ p.1 ∧ p.1 ≤ 10 ∧ 120 ≤ p.2.1 ∧ p.2.1 ≤ 255 ∧ 70 ≤ p.2.2 ∧ p.2.2 ≤ 255) ∨
       (170 ≤ p.1 ∧ p.1 ≤ 180 ∧ 120 ≤ p.2.1 ∧ p.2.1 ≤ 255 ∧ 70 ≤ p.2.2 ∧ p.2.2 ≤ 255)
    then 255 else 0))
  let smoothed := C.gaussianBlur9 redMask
  let cleaned := C.morphOpen5 smoothed
  let redRatio : ℚ := (count_nonzero cleaned : ℚ) / (maskSize cleaned : ℚ)
  (decide (redRatio ≥ minAreaRatio), cleaned)

/- ### The command mapper -/

/-- The constant `COMMAND_IDLE` (line 27). -/
def COMMAND_IDLE : String := "idle"

/-- The constant `COMMAND_MOVE_RED` (line 28). -/
def COMMAND_MOVE_RED : String := "movered"

/-- The Command Mapper: `COMMAND_MOVE_RED if has_red else COMMAND_IDLE`
(line 115). -/
def mapCommand (has_red : Bool) : String :=
  if has_red then COMMAND_MOVE_RED else COMMAND_IDLE

/-- Model of `command.encode("utf-8")` for the ASCII command tokens: the byte
values of the characters. -/
def strBytes (s : String) : List Nat := s.data.map Char.toNat

/-- The bytes `send_command` (lines 130-133) writes for a command:
`struct.pack("<I", len(payload)) + payload`. -/
def send_command_bytes (command : String) : List Nat :=
  writeFrame (strBytes command)

/- ### Pointwise mask lemmas -/

lemma zipWith_map_same {α β γ δ : Type _} (f : β → γ → δ) (g : α → β) (h : α → γ)
    (l : List α) :
    List.zipWith f (l.map g) (l.map h) = l.map (fun x => f (g x) (h x)) := by
  induction l with
  | nil => rfl
  | cons a t iht => simp [iht]

lemma lor_ite (a b : Bool) :
    ((if a then 255 else 0 : Nat) ||| (if b then 255 else 0)) =
      if a || b then 255 else 0 := by
  cases a <;> cases b <;> decide

/-- The OR of the two threshold masks is the pointwise indicator of the
union of the two ranges. -/
lemma bitwise_or_inRange (hsv : Img) :
    bitwise_or (inRange hsv lower_red_1 upper_red_1)
      (inRange hsv lower_red_2 upper_red_2) =
      hsv.map (fun row => row.map (fun p =>
        if pixInRange lower_red_1 upper_red_1 p ||
           pixInRange lower_red_2 upper_red_2 p then 255 else 0)) := by
  unfold bitwise_or inRange
  rw [zipWith_map_same]
  apply List.map_congr_left
  intro row _
  rw [zipWith_map_same]
  apply List.map_congr_left
  intro p _
  exact lor_ite _ _

/- ### The session loop (`handle_client`) and the listener -/

/-- The configuration record `VisionServerConfig` (lines 31-36). -/
structure VisionServerConfig where
  host : String
  port : Nat
  min_red_area : ℚ
  display : Bool

/-- Observable protocol events of one session, in order: a payload that
`decode_image` decoded successfully, and a command handed to
`send_command`. -/
inductive SessionEvent where
  | decoded (payload : List Nat)
  | sent (command : String)
deriving DecidableEq, Repr

/-- How a session ends: `clean` for the `break` on EOF, `err e` for an
exception propagating out of `handle_client` (caught by the listener's
`except Exception` clause). -/
inductive SessionEnd where
  | clean
  | err (e : SessionError)
deriving DecidableEq, Repr

/-- The outcome of one client session: the ordered protocol events, the
bytes written to the socket, and how the session ended. -/
structure SessionResult where
  trace : List SessionEvent
  out : List Nat
  outcome : SessionEnd
deriving DecidableEq, Repr

/-- One iteration of the `handle_client` loop either halts the session
or completes a full read-decode-detect-respond cycle and goes round
again. -/
inductive StepResult where
  | halt (r : SessionResult)
  | proceed (payload : List Nat) (command : String) (msg : List Nat)
      (rest : ChunkedStream)
deriving DecidableEq, Repr

/-- One iteration of the `while True` loop of `handle_client`
(lines 106-120): framed read, `decode_image`, `detect_red_regions`,
command choice, optional `display_debug`, `send_command`. -/
def sessionStep (C : Collab) (cfg : VisionServerConfig) (s : ChunkedStream) :
    StepResult :=
  match readFrame s with
  | ReadResult.eof => StepResult.halt ⟨[], [], SessionEnd.clean⟩
  | ReadResult.headerError =>
      StepResult.halt ⟨[], [], SessionEnd.err SessionError.structError⟩
  | ReadResult.truncated =>
      StepResult.halt ⟨[], [], SessionEnd.err SessionError.connectionError⟩
  | ReadResult.frame payload s2 =>
    match C.imdecode payload with
    | none => StepResult.halt ⟨[], [], SessionEnd.err SessionError.decodeError⟩
    | some frame =>
      if cfg.display &&
          !(C.display frame (detect_red_regions C frame cfg.min_red_area).2
            (mapCommand (detect_red_regions C frame cfg.min_red_area).1)) then
        StepResult.halt ⟨[SessionEvent.decoded payload], [],
          SessionEnd.err SessionError.displayError⟩
      else if C.sendOk (send_command_bytes
          (mapCommand (detect_red_regions C frame cfg.min_red_area).1)) then
        StepResult.proceed payload
          (mapCommand (detect_red_regions C frame cfg.min_red_area).1)
          (send_command_bytes
            (mapCommand (detect_red_regions C frame cfg.min_red_area).1)) s2
      else
        StepResult.halt ⟨[SessionEvent.decoded payload], [],
          SessionEnd.err SessionError.sendError⟩

lemma readFrame_frame_totalBytes {s : ChunkedStream} {payload : List Nat}
    {s2 : ChunkedStream} (h : readFrame s = ReadResult.frame payload s2) :
    totalBytes s2 + 4 ≤ totalBytes s := by
  unfold readFrame at h
  by_cases he : (recv s 4).1.isEmpty
  · simp [he] at h
  · simp only [he, Bool.false_eq_true, if_false] at h
    by_cases h4 : (recv s 4).1.length = 4
    · simp only [h4, if_pos rfl] at h
      cases hre : read_exact (recv s 4).2 (le32dec (recv s 4).1) with
      | error e => rw [hre] at h; cases h
      | ok pr =>
        rw [hre] at h
        cases pr with
        | mk d r =>
          simp only at h
          cases h
          have h1 : totalBytes s2 ≤ totalBytes (recv s 4).2 :=
            readExactGo_ok_totalBytes _ _ _ _ _ hre
          have h2 := recv_totalBytes s 4
          omega
    · simp [h4] at h

lemma sessionStep_proceed_totalBytes {C : Collab} {cfg : VisionServerConfig}
    {s : ChunkedStream} {payload : List Nat} {command : String} {msg : List Nat}
    {s2 : ChunkedStream}
    (h : sessionStep C cfg s = StepResult.proceed payload command msg s2) :
    totalBytes s2 < totalBytes s := by
  unfold sessionStep at h
  split at h
  · simp at h
  · simp at h
  · simp at h
  next p r heq =>
    split at h
    · simp at h
    · split at h
      · simp at h
      · split at h
        · cases h
          have := readFrame_frame_totalBytes heq
          omega
        · simp at h

/-- Model of `handle_client(client_socket)` (lines 104-120): run the session loop
to completion over the stream of incoming byte groups, collecting the
protocol events, the outgoing bytes and the way the session ended. -/
def handle_client (C : Collab) (cfg : VisionServerConfig) (s : ChunkedStream) :
    SessionResult :=
  match hstep : sessionStep C cfg s with
  | StepResult.halt r => r
  | StepResult.proceed payload command msg s2 =>
    let rest := handle_client C cfg s2
    ⟨SessionEvent.decoded payload :: SessionEvent.sent command :: rest.trace,
      msg ++ rest.out, rest.outcome⟩
termination_by totalBytes s
decreasing_by
  exact sessionStep_proceed_totalBytes hstep

lemma handle_client_halt {C : Collab} {cfg : VisionServerConfig}
    {s : ChunkedStream} {r : SessionResult}
    (h : sessionStep C cfg s = StepResult.halt r) :
    handle_client C cfg s = r := by
  rw [handle_client.eq_def]
  split
  · next r' h' => rw [h] at h'; cases h'; rfl
  · next p c m s2 h' => rw [h] at h'; cases h'

lemma handle_client_proceed {C : Collab} {cfg : VisionServerConfig}
    {s : ChunkedStream} {payload : List Nat} {command : String} {msg : List Nat}
    {s2 : ChunkedStream}
    (h : sessionStep C cfg s = StepResult.proceed payload command msg s2) :
    handle_client C cfg s =
      ⟨SessionEvent.decoded payload :: SessionEvent.sent command ::
        (handle_client C cfg s2).trace,
        msg ++ (handle_client C cfg s2).out,
        (handle_client C cfg s2).outcome⟩ := by
  rw [handle_client.eq_def]
  split
  · next r' h' => rw [h] at h'; cases h'
  · next p c m s2' h' => rw [h] at h'; cases h'; rfl

/-- The accept loop of `serve_forever` (lines 93-102) over the sequence
of connections accepted before the process is externally interrupted:
each accepted connection is synchronously handed to `handle_client`;
the `try/except Exception/finally` wrapper turns any session exception
into a logged `SessionEnd.err` and closes the socket, and the loop goes
on to accept the next connection. -/
def serve_forever (C : Collab) (cfg : VisionServerConfig) :
    List ChunkedStream → List SessionResult
  | [] => []
  | conn :: rest => handle_client C cfg conn :: serve_forever C cfg rest

/- ### Claim theorems -/

/-- C6: the Command Mapper is a pure total function from the boolean
detection signal to a Command Token: `map(true) = "movered"`,
`map(false) = "idle"`, and no other value is ever produced. -/
theorem c6_command_mapper_total :
    mapCommand true = "movered" ∧ mapCommand false = "idle" ∧
    ∀ b : Bool, mapCommand b = COMMAND_MOVE_RED ∨ mapCommand b = COMMAND_IDLE := by
  refine ⟨rfl, rfl, ?_⟩
  intro b
  cases b
  · exact Or.inr rfl
  · exact Or.inl rfl

/-- C2: round-trip identity of the framing layer: writing any payload
`p` with the 4-byte little-endian length header (`send_command`'s
framing) and reading it back with the framed read of `handle_client`
(header read followed by `read_exact`) yields `p` unchanged. -/
theorem c2_framing_roundtrip (p : List Nat) (h : p.length < 2 ^ 32) :
    readFrame [writeFrame p] = ReadResult.frame p [] :=
  readFrame_writeFrame p h

/-- Witness for C2 at both Command Tokens. -/
theorem c2_framing_roundtrip_witness :
    (strBytes COMMAND_MOVE_RED).length < 2 ^ 32 ∧
    (strBytes COMMAND_IDLE).length < 2 ^ 32 ∧
    readFrame [writeFrame (strBytes COMMAND_MOVE_RED)] =
      ReadResult.frame (strBytes COMMAND_MOVE_RED) [] ∧
    readFrame [writeFrame (strBytes COMMAND_IDLE)] =
      ReadResult.frame (strBytes COMMAND_IDLE) [] :=
  ⟨by decide, by decide,
    c2_framing_roundtrip (strBytes COMMAND_MOVE_RED) (by decide),
    c2_framing_roundtrip (strBytes COMMAND_IDLE) (by decide)⟩

/-- C10: `read_exact` either returns exactly the requested number of
bytes or raises `ConnectionError`; it never returns short, so every
payload handed to the decoder has exactly the length declared in the
frame header. -/
theorem c10_read_exact_returns_exact_length (s : ChunkedStream) (n : Nat)
    (d : List Nat) (r : ChunkedStream)
    (h : read_exact s n = Except.ok (d, r)) : d.length = n :=
  read_exact_ok_length h

/-- Witness for C10: a 3-byte request served by two partial deliveries
returns exactly 3 bytes. -/
theorem c10_read_exact_returns_exact_length_witness :
    read_exact [[1, 2], [3]] 3 = Except.ok ([1, 2, 3], []) ∧
    ([1, 2, 3] : List Nat).length = 3 := by
  have hval : read_exact [[1, 2], [3]] 3 = Except.ok ([1, 2, 3], []) := by
    simp [read_exact, readExactGo, recv]
  exact ⟨hval, c10_read_exact_returns_exact_length [[1, 2], [3]] 3 [1, 2, 3] [] hval⟩

/-- The pointwise red condition of the source (two `cv2.inRange` calls
OR-ed) agrees with the pointwise red condition written in the
specification. -/
lemma redMask_eq (hsv : Img) :
    hsv.map (fun row => row.map (fun p =>
      if pixInRange lower_red_1 upper_red_1 p ||
         pixInRange lower_red_2 upper_red_2 p then (255 : Nat) else 0)) =
    hsv.map (fun row => row.map (fun p =>
      if (0 ≤ p.1 ∧ p.1 ≤ 10 ∧ 120 ≤ p.2.1 ∧ p.2.1 ≤ 255 ∧ 70 ≤ p.2.2 ∧ p.2.2 ≤ 255) ∨
         (170 ≤ p.1 ∧ p.1 ≤ 180 ∧ 120 ≤ p.2.1 ∧ p.2.1 ≤ 255 ∧ 70 ≤ p.2.2 ∧ p.2.2 ≤ 255)
      then (255 : Nat) else 0)) := by
  apply List.map_congr_left
  intro row _
  apply List.map_congr_left
  intro p _
  simp only [pixInRange, lower_red_1, upper_red_1, lower_red_2, upper_red_2,
    Bool.or_eq_true, decide_eq_true_eq]

/-- C4: `detect_red_regions` computes exactly the algorithm stated in
the specification: HSV conversion, the two inclusive red ranges OR-ed
into one mask, the blur, the opening, the nonzero ratio over the total
pixel count, and the `>=` comparison, returning the processed mask
alongside. -/
theorem c4_detect_computes_spec_algorithm (C : Collab) (frame : Img) (r : ℚ) :
    detect_red_regions C frame r = detectSpec C frame r := by
  simp only [detect_red_regions, detectSpec, bitwise_or_inRange, redMask_eq]

/-- Well-formedness of a session trace relative to how the session
ended: the trace is a sequence of (decoded, sent) pairs — every command
answers exactly the frame decoded right before it — optionally followed
by a single decoded-but-unanswered frame, which is permitted only when
the session aborted at that very frame (an exception in the display or
the send, after which the server tears the connection down and reads no
further frame). -/
def traceOk : List SessionEvent → SessionEnd → Bool
  | [], _ => true
  | [SessionEvent.decoded _], SessionEnd.err SessionError.displayError => true
  | [SessionEvent.decoded _], SessionEnd.err SessionError.sendError => true
  | SessionEvent.decoded _ :: SessionEvent.sent _ :: rest, e => traceOk rest e
  | _, _ => false

lemma sessionStep_halt_traceOk {C : Collab} {cfg : VisionServerConfig}
    {s : ChunkedStream} {r : SessionResult}
    (h : sessionStep C cfg s = StepResult.halt r) :
    traceOk r.trace r.outcome = true := by
  unfold sessionStep at h
  split at h
  · cases h; rfl
  · cases h; rfl
  · cases h; rfl
  · split at h
    · cases h; rfl
    · split at h
      · cases h; rfl
      · split at h
        · cases h
        · cases h; rfl

/-- C1: strict request/response discipline of the session loop: a
command is only ever sent right after a successfully decoded frame
(never unprompted), and whenever the loop goes on to read another
frame, the previous decoded frame has been answered by exactly one
command; the only way a decoded frame stays unanswered is that the
session aborts at that frame and no further frame is read. -/
theorem c1_one_command_per_decoded_frame (C : Collab) (cfg : VisionServerConfig)
    (s : ChunkedStream) :
    traceOk (handle_client C cfg s).trace (handle_client C cfg s).outcome = true := by
  suffices H : ∀ (n : Nat) (s : ChunkedStream), totalBytes s ≤ n →
      traceOk (handle_client C cfg s).trace (handle_client C cfg s).outcome = true from
    H (totalBytes s) s le_rfl
  intro n
  induction n with
  | zero =>
    intro s hs
    cases hst : sessionStep C cfg s with
    | halt r => rw [handle_client_halt hst]; exact sessionStep_halt_traceOk hst
    | proceed p c m s2 =>
      exact absurd (sessionStep_proceed_totalBytes hst) (by omega)
  | succ n ih =>
    intro s hs
    cases hst : sessionStep C cfg s with
    | halt r => rw [handle_client_halt hst]; exact sessionStep_halt_traceOk hst
    | proceed p c m s2 =>
      rw [handle_client_proceed hst]
      simp only [traceOk]
      exact ih s2 (by have := sessionStep_proceed_totalBytes hst; omega)

/-- C8: the accept loop of `serve_forever` serves every accepted
connection with the same per-connection behavior, no matter how the
earlier sessions ended: each session's exception is caught by the
`except Exception` clause and only closes that client's socket, so the
listener goes on to the next connection and terminates only when the
externally given supply of connections ends (process interrupt). -/
theorem c8_listener_survives_session_errors (C : Collab)
    (cfg : VisionServerConfig) (conns : List ChunkedStream) (i : Nat) :
    (serve_forever C cfg conns).length = conns.length ∧
    (serve_forever C cfg conns)[i]? = conns[i]?.map (handle_client C cfg) := by
  constructor
  · induction conns with
    | nil => rfl
    | cons c rest ihr => simp [serve_forever, ihr]
  · induction conns generalizing i with
    | nil => simp [serve_forever]
    | cons c rest ihr =>
      cases i with
      | zero => simp [serve_forever]
      | succ j => simp [serve_forever, ihr j]

/- ### Uniform frames: entirely black and entirely red -/

/-- The HSV pixel `cv2.cvtColor` produces for a black BGR pixel. -/
def blackOf (img : Img) : Img :=
  img.map (fun row => row.map (fun _ => ((0, 0, 0) : Pixel)))

/-- The all-zero mask of the same shape as an image. -/
def zeroMaskOf (img : Img) : Mask :=
  img.map (fun row => row.map (fun _ => (0 : Nat)))

/-- The all-255 mask of the same shape as an image. -/
def fullMaskOf (img : Img) : Mask :=
  img.map (fun row => row.map (fun _ => (255 : Nat)))

/-- The number of pixels of an image. -/
def pixelCount (img : Img) : Nat := (img.map List.length).sum

lemma inRange_blackOf_red1 (img : Img) :
    inRange (blackOf img) lower_red_1 upper_red_1 = zeroMaskOf img := by
  unfold inRange blackOf zeroMaskOf
  simp [List.map_map, Function.comp, pixInRange, lower_red_1, upper_red_1]

lemma inRange_blackOf_red2 (img : Img) :
    inRange (blackOf img) lower_red_2 upper_red_2 = zeroMaskOf img := by
  unfold inRange blackOf zeroMaskOf
  simp [List.map_map, Function.comp, pixInRange, lower_red_2, upper_red_2]

lemma bitwise_or_zeroMask (img : Img) :
    bitwise_or (zeroMaskOf img) (zeroMaskOf img) = zeroMaskOf img := by
  unfold bitwise_or zeroMaskOf
  rw [zipWith_map_same]
  apply List.map_congr_left
  intro row _
  rw [zipWith_map_same]
  simp

lemma filter_nonzero_of_zeros (l : List Pixel) :
    ((l.map fun _ => (0 : Nat)).filter (fun x => x != 0)) = [] := by
  induction l with
  | nil => rfl
  | cons a t iht => simpa using iht

lemma filter_nonzero_of_full (l : List Pixel) :
    ((l.map fun _ => (255 : Nat)).filter (fun x => x != 0)) =
      l.map fun _ => (255 : Nat) := by
  induction l with
  | nil => rfl
  | cons a t iht => simpa using iht

lemma count_nonzero_zeroMaskOf (img : Img) :
    count_nonzero (zeroMaskOf img) = 0 := by
  unfold count_nonzero zeroMaskOf
  rw [List.map_map]
  have : ∀ row ∈ img, ((fun row => ((row.filter (fun x => x != 0)).length)) ∘
      fun row => row.map (fun _ => (0 : Nat))) row = 0 := by
    intro row _
    simp [Function.comp, filter_nonzero_of_zeros]
  rw [List.map_congr_left this]
  simp [List.sum_eq_zero]

lemma count_nonzero_fullMaskOf (img : Img) :
    count_nonzero (fullMaskOf img) = pixelCount img := by
  unfold count_nonzero fullMaskOf pixelCount
  rw [List.map_map]
  apply congrArg
  apply List.map_congr_left
  intro row _
  simp [Function.comp, filter_nonzero_of_full]

lemma maskSize_zeroMaskOf (img : Img) :
    maskSize (zeroMaskOf img) = pixelCount img := by
  unfold maskSize zeroMaskOf pixelCount
  rw [List.map_map]
  apply congrArg
  apply List.map_congr_left
  intro row _
  simp [Function.comp]

lemma maskSize_fullMaskOf (img : Img) :
    maskSize (fullMaskOf img) = pixelCount img := by
  unfold maskSize fullMaskOf pixelCount
  rw [List.map_map]
  apply congrArg
  apply List.map_congr_left
  intro row _
  simp [Function.comp]

/-- Under the all-red membership hypothesis the OR of the two threshold
masks is saturated. -/
lemma bitwise_or_inRange_full (hsv : Img)
    (hr : ∀ row ∈ hsv, ∀ p ∈ row,
      (pixInRange lower_red_1 upper_red_1 p ||
        pixInRange lower_red_2 upper_red_2 p) = true) :
    bitwise_or (inRange hsv lower_red_1 upper_red_1)
      (inRange hsv lower_red_2 upper_red_2) = fullMaskOf hsv := by
  rw [bitwise_or_inRange]
  unfold fullMaskOf
  apply List.map_congr_left
  intro row hrow
  apply List.map_congr_left
  intro p hp
  rw [hr row hrow p hp]
  rfl

/-- On an entirely black frame the detector reports no red for any
strictly positive threshold, assuming the opaque blur and opening
preserve the all-zero mask (as the OpenCV kernels do). -/
lemma detect_black_false {C : Collab} {f : Img} {t : ℚ}
    (hb : C.cvtColor f = blackOf f)
    (hbz : C.gaussianBlur9 (zeroMaskOf f) = zeroMaskOf f)
    (hbm : C.morphOpen5 (zeroMaskOf f) = zeroMaskOf f)
    (ht : 0 < t) :
    (detect_red_regions C f t).1 = false := by
  simp only [detect_red_regions, hb, inRange_blackOf_red1, inRange_blackOf_red2,
    bitwise_or_zeroMask, hbz, hbm, count_nonzero_zeroMaskOf, Nat.cast_zero,
    zero_div, ge_iff_le, decide_eq_false_iff_not, not_le]
  exact ht

/-- On a frame whose HSV pixels all lie in the red ranges, with at
least one pixel, the detector reports red for any threshold at most
1.0, assuming the opaque blur and opening preserve the saturated mask
(as the OpenCV kernels do). -/
lemma detect_allred_true {C : Collab} {f : Img} {t : ℚ}
    (hr : ∀ row ∈ C.cvtColor f, ∀ p ∈ row,
      (pixInRange lower_red_1 upper_red_1 p ||
        pixInRange lower_red_2 upper_red_2 p) = true)
    (hrf : C.gaussianBlur9 (fullMaskOf (C.cvtColor f)) =
      fullMaskOf (C.cvtColor f))
    (hrm : C.morphOpen5 (fullMaskOf (C.cvtColor f)) =
      fullMaskOf (C.cvtColor f))
    (hne : 0 < pixelCount (C.cvtColor f))
    (ht : t ≤ 1) :
    (detect_red_regions C f t).1 = true := by
  simp only [detect_red_regions, bitwise_or_inRange_full (C.cvtColor f) hr,
    hrf, hrm, count_nonzero_fullMaskOf, maskSize_fullMaskOf, ge_iff_le,
    decide_eq_true_eq]
  have hnz : ((pixelCount (C.cvtColor f) : ℚ)) ≠ 0 := by
    exact_mod_cast Nat.pos_iff_ne_zero.mp hne
  rw [div_self hnz]
  exact ht

/-- C5: an entirely black frame yields `hasRed = false` for every
strictly positive threshold, and a frame whose pixels (after HSV
conversion) all lie in the red ranges — with at least one pixel, so the
red ratio is 1.0 — yields `hasRed = true` for every threshold at most
1.0.  The opaque blur and opening capabilities are assumed to preserve
the all-zero and the saturated mask, as the OpenCV kernels do. -/
theorem c5_black_false_allred_true (Ca Cb : Collab) (fb fr : Img) (t1 t2 : ℚ)
    (hb : Ca.cvtColor fb = blackOf fb)
    (hbz : Ca.gaussianBlur9 (zeroMaskOf fb) = zeroMaskOf fb)
    (hbm : Ca.morphOpen5 (zeroMaskOf fb) = zeroMaskOf fb)
    (ht1 : 0 < t1)
    (hr : ∀ row ∈ Cb.cvtColor fr, ∀ p ∈ row,
      (pixInRange lower_red_1 upper_red_1 p ||
        pixInRange lower_red_2 upper_red_2 p) = true)
    (hrf : Cb.gaussianBlur9 (fullMaskOf (Cb.cvtColor fr)) =
      fullMaskOf (Cb.cvtColor fr))
    (hrm : Cb.morphOpen5 (fullMaskOf (Cb.cvtColor fr)) =
      fullMaskOf (Cb.cvtColor fr))
    (hne : 0 < pixelCount (Cb.cvtColor fr))
    (ht2 : t2 ≤ 1) :
    (detect_red_regions Ca fb t1).1 = false ∧
    (detect_red_regions Cb fr t2).1 = true :=
  ⟨detect_black_false hb hbz hbm ht1, detect_allred_true hr hrf hrm hne ht2⟩

/-- Identity collaborators for concrete instantiations: the frame is
already given in HSV coordinates, blur and opening are the identity
(legitimate instances of the opaque capabilities), the display always
succeeds and sends never fail; the decoder recognises no payload. -/
def idCollab : Collab :=
  ⟨fun _ => none, fun i => i, fun m => m, fun m => m,
    fun _ _ _ => true, fun _ => true⟩

/-- Witness for C5: a 1-pixel black frame is rejected and a 1-pixel red
frame is accepted at threshold 1/2. -/
theorem c5_black_false_allred_true_witness :
    (0 : ℚ) < 1 / 2 ∧ (1 / 2 : ℚ) ≤ 1 ∧
    (detect_red_regions idCollab [[(0, 0, 0)]] (1 / 2)).1 = false ∧
    (detect_red_regions idCollab [[(5, 200, 200)]] (1 / 2)).1 = true := by
  have h := c5_black_false_allred_true idCollab idCollab [[(0, 0, 0)]]
    [[(5, 200, 200)]] (1 / 2) (1 / 2) rfl rfl rfl (by norm_num)
    (by decide) rfl rfl (by decide) (by norm_num)
  exact ⟨by norm_num, by norm_num, h.1, h.2⟩

/- ### Concrete session runs -/

lemma sessionStep_nil (C : Collab) (cfg : VisionServerConfig) :
    sessionStep C cfg [] = StepResult.halt ⟨[], [], SessionEnd.clean⟩ := rfl

/-- A one-message session whose frame decodes to an all-red image
replies with exactly one framed `"movered"` and ends cleanly. -/
lemma e2e_run_red (C : Collab) (host : String) (port : Nat) (t : ℚ)
    (pay : List Nat) (f : Img)
    (hlen : pay.length < 2 ^ 32) (hdec : C.imdecode pay = some f)
    (hr : ∀ row ∈ C.cvtColor f, ∀ p ∈ row,
      (pixInRange lower_red_1 upper_red_1 p ||
        pixInRange lower_red_2 upper_red_2 p) = true)
    (hrf : C.gaussianBlur9 (fullMaskOf (C.cvtColor f)) = fullMaskOf (C.cvtColor f))
    (hrm : C.morphOpen5 (fullMaskOf (C.cvtColor f)) = fullMaskOf (C.cvtColor f))
    (hne : 0 < pixelCount (C.cvtColor f))
    (ht : t ≤ 1)
    (hsend : C.sendOk (send_command_bytes COMMAND_MOVE_RED) = true) :
    handle_client C ⟨host, port, t, false⟩ [writeFrame pay] =
      ⟨[SessionEvent.decoded pay, SessionEvent.sent COMMAND_MOVE_RED],
        send_command_bytes COMMAND_MOVE_RED, SessionEnd.clean⟩ := by
  have hdet : (detect_red_regions C f t).1 = true :=
    detect_allred_true hr hrf hrm hne ht
  have hstep : sessionStep C ⟨host, port, t, false⟩ [writeFrame pay] =
      StepResult.proceed pay COMMAND_MOVE_RED
        (send_command_bytes COMMAND_MOVE_RED) [] := by
    unfold sessionStep
    simp only [readFrame_writeFrame pay hlen, hdec, hdet, mapCommand, if_pos rfl,
      Bool.false_and, Bool.false_eq_true, if_false, hsend, if_true]
  rw [handle_client_proceed hstep, handle_client_halt (sessionStep_nil C _)]
  simp

/-- A one-message session whose frame decodes to an all-black image
replies with exactly one framed `"idle"` and ends cleanly. -/
lemma e2e_run_black (C : Collab) (host : String) (port : Nat) (t : ℚ)
    (pay : List Nat) (f : Img)
    (hlen : pay.length < 2 ^ 32) (hdec : C.imdecode pay = some f)
    (hb : C.cvtColor f = blackOf f)
    (hbz : C.gaussianBlur9 (zeroMaskOf f) = zeroMaskOf f)
    (hbm : C.morphOpen5 (zeroMaskOf f) = zeroMaskOf f)
    (ht : 0 < t)
    (hsend : C.sendOk (send_command_bytes COMMAND_IDLE) = true) :
    handle_client C ⟨host, port, t, false⟩ [writeFrame pay] =
      ⟨[SessionEvent.decoded pay, SessionEvent.sent COMMAND_IDLE],
        send_command_bytes COMMAND_IDLE, SessionEnd.clean⟩ := by
  have hdet : (detect_red_regions C f t).1 = false :=
    detect_black_false hb hbz hbm ht
  have hstep : sessionStep C ⟨host, port, t, false⟩ [writeFrame pay] =
      StepResult.proceed pay COMMAND_IDLE (send_command_bytes COMMAND_IDLE) [] := by
    unfold sessionStep
    simp only [readFrame_writeFrame pay hlen, hdec, hdet, mapCommand,
      Bool.false_and, Bool.false_eq_true, if_false, hsend, if_true]
  rw [handle_client_proceed hstep, handle_client_halt (sessionStep_nil C _)]
  simp

/-- A 1x1 black frame (already in HSV coordinates). -/
def blackFrame1 : Img := [[(0, 0, 0)]]

/-- Concrete collaborators for closed runs: a decoder recognising the
one-byte payload 65 as a black frame, identity conversions, a display
that succeeds and sends that succeed. -/
def testCollab : Collab :=
  ⟨fun p => if p = [65] then some blackFrame1 else none,
    fun i => i, fun m => m, fun m => m, fun _ _ _ => true, fun _ => true⟩

/-- The same collaborators except that every `display_debug` call
raises. -/
def displayFailCollab : Collab :=
  ⟨fun p => if p = [65] then some blackFrame1 else none,
    fun i => i, fun m => m, fun m => m, fun _ _ _ => false, fun _ => true⟩

/-- The default configuration with the debug display disabled. -/
def testConfig : VisionServerConfig := ⟨"0.0.0.0", 5005, 1 / 200, false⟩

lemma frag_stream_single : ([[(1 : Nat), 0, 0, 0, 65]] : ChunkedStream) =
    [writeFrame [65]] := by decide

/-- C3: behavior of the framed read at stream end and on a fragmented
header.  EOF before any byte of a new message is a clean end of
session, and EOF after 2 of the 4 header bytes is an error distinct
from the clean end — but the header is read with a single `recv(4)`
instead of `read_exact`, so the very same bytes that form a complete
message when delivered in one piece abort the session with
`struct.error` when the header arrives split across two deliveries on
a live connection: the read does not block until the full header has
been received. -/
theorem c3_header_read_behavior :
    readFrame [] = ReadResult.eof ∧
    readFrame [[1, 0]] = ReadResult.headerError ∧
    handle_client testCollab testConfig [[1, 0], [0, 0], [65]] =
      ⟨[], [], SessionEnd.err SessionError.structError⟩ ∧
    handle_client testCollab testConfig [[1, 0, 0, 0, 65]] =
      ⟨[SessionEvent.decoded [65], SessionEvent.sent COMMAND_IDLE],
        send_command_bytes COMMAND_IDLE, SessionEnd.clean⟩ := by
  refine ⟨rfl, rfl, handle_client_halt (by decide), ?_⟩
  have h := e2e_run_black testCollab "0.0.0.0" 5005 (1 / 200) [65] blackFrame1
    (by decide) rfl rfl rfl rfl (by norm_num) rfl
  rw [testConfig, frag_stream_single]
  exact h

/-- With a display collaborator that never fails, enabling the debug
display does not change one step of the session loop. -/
lemma sessionStep_display_ok (C : Collab) (host : String) (port : Nat) (mr : ℚ)
    (s : ChunkedStream) (hdisp : ∀ f m c, C.display f m c = true) :
    sessionStep C ⟨host, port, mr, true⟩ s =
      sessionStep C ⟨host, port, mr, false⟩ s := by
  unfold sessionStep
  cases hrf : readFrame s with
  | eof => simp only [hrf]
  | headerError => simp only [hrf]
  | truncated => simp only [hrf]
  | frame payload s2 =>
    simp only [hrf]
    cases hdec : C.imdecode payload with
    | none => simp only [hdec]
    | some frame => simp [hdisp]

/-- C7 (amended): a successful Visualize step has no effect on the
protocol: with a display collaborator that never fails, the session
behaves identically — same events, same bytes on the wire, same
termination — whether the debug display is enabled or not.  (When the
display does fail, the exception propagates and aborts the session
before the command is sent; see the counterexample.) -/
theorem c7_successful_display_is_protocol_transparent (C : Collab)
    (host : String) (port : Nat) (mr : ℚ) (s : ChunkedStream)
    (hdisp : ∀ f m c, C.display f m c = true) :
    handle_client C ⟨host, port, mr, true⟩ s =
      handle_client C ⟨host, port, mr, false⟩ s := by
  suffices H : ∀ (n : Nat) (s : ChunkedStream), totalBytes s ≤ n →
      handle_client C ⟨host, port, mr, true⟩ s =
        handle_client C ⟨host, port, mr, false⟩ s from
    H (totalBytes s) s le_rfl
  intro n
  induction n with
  | zero =>
    intro s hs
    cases hst : sessionStep C ⟨host, port, mr, false⟩ s with
    | halt r =>
      rw [handle_client_halt ((sessionStep_display_ok C host port mr s hdisp).trans hst),
        handle_client_halt hst]
    | proceed p c m s2 =>
      exact absurd (sessionStep_proceed_totalBytes hst) (by omega)
  | succ n ih =>
    intro s hs
    cases hst : sessionStep C ⟨host, port, mr, false⟩ s with
    | halt r =>
      rw [handle_client_halt ((sessionStep_display_ok C host port mr s hdisp).trans hst),
        handle_client_halt hst]
    | proceed p c m s2 =>
      rw [handle_client_proceed ((sessionStep_display_ok C host port mr s hdisp).trans hst),
        handle_client_proceed hst,
        ih s2 (by have := sessionStep_proceed_totalBytes hst; omega)]

/-- Witness for the amended C7 at concrete collaborators and stream. -/
theorem c7_successful_display_is_protocol_transparent_witness :
    handle_client testCollab ⟨"0.0.0.0", 5005, 1 / 200, true⟩ [[1, 0, 0, 0, 65]] =
      handle_client testCollab ⟨"0.0.0.0", 5005, 1 / 200, false⟩ [[1, 0, 0, 0, 65]] :=
  c7_successful_display_is_protocol_transparent testCollab "0.0.0.0" 5005
    (1 / 200) [[1, 0, 0, 0, 65]] (fun _ _ _ => rfl)

/-- Counterexample to C7 as stated: with the debug display enabled and
a failing Visualize step, the session run on one decodable frame sends
no command at all (no `sent` event, no bytes out) and aborts with the
display exception — the failure does throw into the protocol path. -/
theorem c7_display_failure_aborts_session :
    handle_client displayFailCollab ⟨"0.0.0.0", 5005, 1 / 200, true⟩
      [[1, 0, 0, 0, 65]] =
      ⟨[SessionEvent.decoded [65]], [], SessionEnd.err SessionError.displayError⟩ := by
  have hrf : readFrame [[1, 0, 0, 0, 65]] = ReadResult.frame [65] [] := by
    rw [frag_stream_single]
    exact readFrame_writeFrame [65] (by decide)
  have hstep : sessionStep displayFailCollab ⟨"0.0.0.0", 5005, 1 / 200, true⟩
      [[1, 0, 0, 0, 65]] =
      StepResult.halt ⟨[SessionEvent.decoded [65]], [],
        SessionEnd.err SessionError.displayError⟩ := by
    unfold sessionStep
    simp only [hrf]
    simp [displayFailCollab]
  exact handle_client_halt hstep

/-- A 10x10 image all of whose pixels lie in the first red HSV range. -/
def redFrame10 : Img := List.replicate 10 (List.replicate 10 ((0, 255, 255) : Pixel))

/-- A 10x10 all-black image. -/
def blackFrame10 : Img := List.replicate 10 (List.replicate 10 ((0, 0, 0) : Pixel))

/-- Collaborators for the end-to-end scenario: payload `[1]` decodes to
the 10x10 all-red frame, payload `[2]` to the 10x10 all-black frame. -/
def e2eCollab : Collab :=
  ⟨fun p => if p = [1] then some redFrame10
    else if p = [2] then some blackFrame10 else none,
    fun i => i, fun m => m, fun m => m, fun _ _ _ => true, fun _ => true⟩

/-- C9 (amended): end-to-end at threshold 0.005 with the display off:
one frame that decodes to an all-red image (red ratio 1.0) is answered
on the wire by the framed message whose 4-byte little-endian length
header equals 7 — the length of `"movered"` — followed by the ASCII
bytes of `"movered"`, and one frame that decodes to an all-black image
is answered by the header 4 followed by the ASCII bytes of `"idle"`;
both sessions then end cleanly at EOF. -/
theorem c9_end_to_end_replies (C : Collab) (host : String) (port : Nat)
    (payR payB : List Nat) (fR fB : Img)
    (hlenR : payR.length < 2 ^ 32) (hlenB : payB.length < 2 ^ 32)
    (hdecR : C.imdecode payR = some fR) (hdecB : C.imdecode payB = some fB)
    (hr : ∀ row ∈ C.cvtColor fR, ∀ p ∈ row,
      (pixInRange lower_red_1 upper_red_1 p ||
        pixInRange lower_red_2 upper_red_2 p) = true)
    (hrf : C.gaussianBlur9 (fullMaskOf (C.cvtColor fR)) = fullMaskOf (C.cvtColor fR))
    (hrm : C.morphOpen5 (fullMaskOf (C.cvtColor fR)) = fullMaskOf (C.cvtColor fR))
    (hneR : 0 < pixelCount (C.cvtColor fR))
    (hb : C.cvtColor fB = blackOf fB)
    (hbz : C.gaussianBlur9 (zeroMaskOf fB) = zeroMaskOf fB)
    (hbm : C.morphOpen5 (zeroMaskOf fB) = zeroMaskOf fB)
    (hsendR : C.sendOk (send_command_bytes COMMAND_MOVE_RED) = true)
    (hsendB : C.sendOk (send_command_bytes COMMAND_IDLE) = true) :
    handle_client C ⟨host, port, 1 / 200, false⟩ [writeFrame payR] =
      ⟨[SessionEvent.decoded payR, SessionEvent.sent COMMAND_MOVE_RED],
        [7, 0, 0, 0, 109, 111, 118, 101, 114, 101, 100], SessionEnd.clean⟩ ∧
    handle_client C ⟨host, port, 1 / 200, false⟩ [writeFrame payB] =
      ⟨[SessionEvent.decoded payB, SessionEvent.sent COMMAND_IDLE],
        [4, 0, 0, 0, 105, 100, 108, 101], SessionEnd.clean⟩ := by
  have h1 := e2e_run_red C host port (1 / 200) payR fR hlenR hdecR hr hrf hrm hneR
    (by norm_num) hsendR
  have h2 := e2e_run_black C host port (1 / 200) payB fB hlenB hdecB hb hbz hbm
    (by norm_num) hsendB
  rw [h1, h2]
  constructor
  · have : send_command_bytes COMMAND_MOVE_RED =
        [7, 0, 0, 0, 109, 111, 118, 101, 114, 101, 100] := by decide
    rw [this]
  · have : send_command_bytes COMMAND_IDLE = [4, 0, 0, 0, 105, 100, 108, 101] := by
      decide
    rw [this]

/-- Witness for the amended C9 at the concrete 10x10 scenario. -/
theorem c9_end_to_end_replies_witness :
    handle_client e2eCollab ⟨"0.0.0.0", 5005, 1 / 200, false⟩ [writeFrame [1]] =
      ⟨[SessionEvent.decoded [1], SessionEvent.sent COMMAND_MOVE_RED],
        [7, 0, 0, 0, 109, 111, 118, 101, 114, 101, 100], SessionEnd.clean⟩ ∧
    handle_client e2eCollab ⟨"0.0.0.0", 5005, 1 / 200, false⟩ [writeFrame [2]] =
      ⟨[SessionEvent.decoded [2], SessionEvent.sent COMMAND_IDLE],
        [4, 0, 0, 0, 105, 100, 108, 101], SessionEnd.clean⟩ :=
  c9_end_to_end_replies e2eCollab "0.0.0.0" 5005 [1] [2] redFrame10 blackFrame10
    (by decide) (by decide) rfl rfl (by decide) rfl rfl (by decide)
    (by decide) rfl rfl rfl rfl

/-- Counterexample to C9 as stated: in the all-red scenario the reply
on the wire carries the length header 7 (the length of `"movered"`),
not 8 as the claim asserts. -/
theorem c9_header_is_seven_not_eight :
    (handle_client e2eCollab ⟨"0.0.0.0", 5005, 1 / 200, false⟩
      [writeFrame [1]]).out = [7, 0, 0, 0, 109, 111, 118, 101, 114, 101, 100] ∧
    (handle_client e2eCollab ⟨"0.0.0.0", 5005, 1 / 200, false⟩
      [writeFrame [1]]).out ≠ [8, 0, 0, 0, 109, 111, 118, 101, 114, 101, 100] := by
  have h := e2e_run_red e2eCollab "0.0.0.0" 5005 (1 / 200) [1] redFrame10
    (by decide) rfl (by decide) rfl rfl (by decide) (by norm_num) rfl
  rw [h]
  exact ⟨by decide, by decide⟩
